import Mathlib

/-!
Shallow embedding of the encrypted-operation client of the
`fhevm-react-template` repository, translated from
`packages/fhevm-sdk/src/core/FhevmClient.ts` (the `FhevmClientImpl` and
`EncryptedInputBuilderImpl` classes and `createFhevmInstance`) and
`packages/fhevm-sdk/src/core/types.ts` (the `NETWORKS` preset table and the
interface types).

Conventions of the embedding:
* JavaScript `throw new Error(msg)` is `Except.error msg`; a normal return is
  `Except.ok`.
* A possibly-`undefined` JavaScript value is an `Option`; JavaScript's `||`
  fallback on strings (which also rejects the empty string, a falsy value)
  is `jsOr`.
* TypeScript `number` and `bigint` plaintext values are both `Int`.
* The wrapped third-party FHE engine (`fhevmjs`) is an external collaborator:
  it is modelled as a record of opaque total functions (`FhevmjsInstance`),
  and its batch builder as an accumulator of the add-calls the SDK issues
  against it, so that theorems quantify over every possible engine.
* `fetch` and engine construction are supplied by a `ClientEnv` record of
  functions, so HTTP responses are explicit data.
* Mutation of `this` fields becomes explicit state passing of `ClientState`.
-/

set_option autoImplicit false

namespace FhevmSdk

/-- Untyped JavaScript value as stored in the builder's `inputs` array
(`value: any` in the source) and as returned by the gateway's decrypt
endpoint (`data.value`). -/
inductive Value where
  | num (n : Int)
  | bool (b : Bool)
  | str (s : String)
  deriving DecidableEq, Repr

/-- One element of `EncryptedInputBuilderImpl.inputs`:
`{ type: string; value: any }`. -/
structure Input where
  type : String
  value : Value
  deriving DecidableEq, Repr

/-- `NetworkConfig` from `core/types.ts`: `chainId`, `name`, `rpcUrl` are
required; `gatewayUrl`, `aclAddress`, `kmsVerifierAddress` are optional. -/
structure NetworkConfig where
  chainId : Nat
  name : String
  rpcUrl : String
  gatewayUrl : Option String
  aclAddress : Option String
  kmsVerifierAddress : Option String
  deriving DecidableEq, Repr

/-- The `NETWORKS` preset table from `core/types.ts`, entry `sepolia`. -/
def sepoliaNetwork : NetworkConfig :=
  { chainId := 11155111
    name := "Sepolia"
    rpcUrl := "https://rpc.sepolia.org"
    gatewayUrl := some "https://gateway.sepolia.zama.ai"
    aclAddress := some "0x339EcE85B9E11a3A3AA557582784a15d7F82AAf2"
    kmsVerifierAddress := some "0x12345..." }

/-- The `NETWORKS` preset table from `core/types.ts`, entry `zamaDevnet`. -/
def zamaDevnetNetwork : NetworkConfig :=
  { chainId := 9000
    name := "Zama Devnet"
    rpcUrl := "https://devnet.zama.ai"
    gatewayUrl := some "https://gateway.devnet.zama.ai"
    aclAddress := some "0x2Fb4341..."
    kmsVerifierAddress := some "0x67890..." }

/-- The `NETWORKS` preset table from `core/types.ts`, entry `zamaTestnet`. -/
def zamaTestnetNetwork : NetworkConfig :=
  { chainId := 8009
    name := "Zama Testnet"
    rpcUrl := "https://fhevm-testnet.zama.ai"
    gatewayUrl := some "https://gateway.testnet.zama.ai"
    aclAddress := none
    kmsVerifierAddress := none }

/-- The `NETWORKS : Record<string, NetworkConfig>` constant of
`core/types.ts`, as an association list in declaration order. -/
def NETWORKS : List (String × NetworkConfig) :=
  [("sepolia", sepoliaNetwork),
   ("zamaDevnet", zamaDevnetNetwork),
   ("zamaTestnet", zamaTestnetNetwork)]

/-- Key access into the `NETWORKS` record: `NETWORKS[name]`, which is the
matching entry or `undefined` (`none`). -/
def NETWORKS.find (name : String) : Option NetworkConfig :=
  (NETWORKS.find? (fun p => p.1 = name)).map Prod.snd

/-- Modelled from the spec: the repository only defines the `NETWORKS`
table (in `core/types.ts`); the registry operation
`lookup(name) -> NetworkProfile` failing with `UnknownNetwork` of spec
section 4.1 is not implemented anywhere under `src/`. It is modelled as key
access into the source's `NETWORKS` table, with an absent key (`undefined`
in JavaScript) surfacing as the `UnknownNetwork` failure. -/
def lookup (name : String) : Except String NetworkConfig :=
  match NETWORKS.find name with
  | some cfg => Except.ok cfg
  | none => Except.error "UnknownNetwork"

/-- `FhevmConfig` from `core/types.ts`, minus the opaque ethers provider
(never consulted by the client code under verification). -/
structure FhevmConfig where
  network : NetworkConfig
  gatewayUrl : Option String
  aclAddress : Option String
  kmsVerifierAddress : Option String
  deriving DecidableEq, Repr

/-- JavaScript `a || b` on two possibly-undefined strings: `b` is used when
`a` is `undefined` or falsy (the empty string). -/
def jsOr (a b : Option String) : Option String :=
  match a with
  | some s => if s = "" then b else some s
  | none => b

/-- One engine add-call recorded by the engine's batch builder: the method
name (`"add8"`, ..., `"addAddress"`) and the raw value passed to it. -/
abbrev EngineCall := String × Value

/-- Opaque handle to the wrapped `fhevmjs` engine. Its operations are
arbitrary total functions: the SDK treats every one of them as an opaque
capability, so theorems below hold for every engine. -/
structure FhevmjsInstance where
  encrypt8 : Int → String
  encrypt16 : Int → String
  encrypt32 : Int → String
  encrypt64 : Int → String
  encryptBool : Bool → String
  encryptAddress : String → String
  /-- Handle the engine's batch builder produces for one add-call. -/
  handleOf : EngineCall → String
  /-- Proof the engine produces for a finalized batch bound to a
  (contract, user) address pair. -/
  proofOf : String → String → List EngineCall → String

/-- The engine's own batch builder (`instance.createEncryptedInput(...)`):
an accumulator of the add-calls issued against it. -/
structure EngineInputBuilder where
  inst : FhevmjsInstance
  contractAddress : String
  userAddress : String
  calls : List EngineCall

def FhevmjsInstance.createEncryptedInput (inst : FhevmjsInstance)
    (contractAddress userAddress : String) : EngineInputBuilder :=
  ⟨inst, contractAddress, userAddress, []⟩

def EngineInputBuilder.add8 (b : EngineInputBuilder) (v : Value) : EngineInputBuilder :=
  { b with calls := b.calls ++ [("add8", v)] }

def EngineInputBuilder.add16 (b : EngineInputBuilder) (v : Value) : EngineInputBuilder :=
  { b with calls := b.calls ++ [("add16", v)] }

def EngineInputBuilder.add32 (b : EngineInputBuilder) (v : Value) : EngineInputBuilder :=
  { b with calls := b.calls ++ [("add32", v)] }

def EngineInputBuilder.add64 (b : EngineInputBuilder) (v : Value) : EngineInputBuilder :=
  { b with calls := b.calls ++ [("add64", v)] }

def EngineInputBuilder.addBool (b : EngineInputBuilder) (v : Value) : EngineInputBuilder :=
  { b with calls := b.calls ++ [("addBool", v)] }

def EngineInputBuilder.addAddress (b : EngineInputBuilder) (v : Value) : EngineInputBuilder :=
  { b with calls := b.calls ++ [("addAddress", v)] }

/-- `EncryptedInput` from `core/types.ts`: `{handles: string[];
inputProof: string}`. -/
structure EncryptedInput where
  handles : List String
  inputProof : String
  deriving DecidableEq, Repr

/-- The engine builder's terminal `input.encrypt()`: one handle per
recorded add-call, in call order, plus the joint proof. -/
def EngineInputBuilder.encrypt (b : EngineInputBuilder) : EncryptedInput :=
  { handles := b.calls.map b.inst.handleOf
    inputProof := b.inst.proofOf b.contractAddress b.userAddress b.calls }

/-- Parsed JSON body of `GET {gatewayUrl}/fhe-key` together with the
response status: `publicKey` is the body's possibly-absent `publicKey`
field, `ok` the `response.ok` flag (which the source never reads on this
endpoint). -/
structure KeyResponse where
  ok : Bool
  publicKey : Option String
  deriving DecidableEq, Repr

/-- One response of `GET {gatewayUrl}/decrypt/{requestId}`: `ok` is
`response.ok`; `value` is the body's possibly-absent `value` field;
`errorReason` is an explicit rejection reason the gateway may place in the
body of a non-ok response (the source never reads it). -/
structure PollResponse where
  ok : Bool
  value : Option Value
  errorReason : Option String
  deriving DecidableEq, Repr

/-- Parameters of `createInstance` as assembled by `ensureInitialized`. -/
structure CreateParams where
  chainId : Nat
  publicKey : Option String
  gatewayUrl : Option String
  aclAddress : Option String
  kmsVerifierAddress : Option String

/-- External world of one client: what `fetch` answers on the key endpoint,
what it answers on the n-th decrypt poll (`none` models a thrown network
error such as connection refused), and what engine `createInstance`
constructs. -/
structure ClientEnv where
  fetchKey : String → KeyResponse
  fetchDecrypt : Nat → Option PollResponse
  mkEngine : CreateParams → FhevmjsInstance

/-- Mutable fields of `FhevmClientImpl`: `private instance:
FhevmjsInstance | null = null` and `private isInitialized = false`. -/
structure ClientState where
  inst : Option FhevmjsInstance
  isInitialized : Bool

/-- Fresh client state right after the constructor ran. -/
def ClientState.fresh : ClientState := ⟨none, false⟩

/-- `FhevmClientImpl.getPublicKey`: resolves the gateway URL as
`this.config.gatewayUrl || this.config.network.gatewayUrl`, throws
`'Gateway URL not configured'` when the resolved URL is falsy
(`if (!gatewayUrl)`: undefined or the empty string), otherwise fetches
`{gatewayUrl}/fhe-key` and returns `data.publicKey` — without inspecting
`response.ok` and without checking that the field is present. -/
def getPublicKey (cfg : FhevmConfig) (env : ClientEnv) : Except String (Option String) :=
  match jsOr cfg.gatewayUrl cfg.network.gatewayUrl with
  | none => Except.error "Gateway URL not configured"
  | some gatewayUrl =>
      if gatewayUrl = "" then Except.error "Gateway URL not configured"
      else Except.ok (env.fetchKey (gatewayUrl ++ "/fhe-key")).publicKey

/-- `FhevmClientImpl.ensureInitialized`: when `!this.instance ||
!this.isInitialized`, fetch the public key, construct the engine via
`createInstance` with the `||`-resolved overrides, store it and set the
flag; otherwise return the memoized engine unchanged. -/
def ensureInitialized (cfg : FhevmConfig) (env : ClientEnv) (s : ClientState) :
    Except String (FhevmjsInstance × ClientState) :=
  if s.inst.isNone || !s.isInitialized then
    match getPublicKey cfg env with
    | Except.error e => Except.error e
    | Except.ok key =>
        let inst := env.mkEngine
          { chainId := cfg.network.chainId
            publicKey := key
            gatewayUrl := jsOr cfg.gatewayUrl cfg.network.gatewayUrl
            aclAddress := jsOr cfg.aclAddress cfg.network.aclAddress
            kmsVerifierAddress :=
              jsOr cfg.kmsVerifierAddress cfg.network.kmsVerifierAddress }
        Except.ok (inst, ⟨some inst, true⟩)
  else
    match s.inst with
    | some inst => Except.ok (inst, s)
    | none => Except.error "unreachable"

/-- `FhevmClientImpl.encrypt8`: initialize if needed, then delegate the raw
value to the engine. No domain validation is performed. -/
def encrypt8 (cfg : FhevmConfig) (env : ClientEnv) (s : ClientState) (value : Int) :
    Except String (String × ClientState) :=
  (ensureInitialized cfg env s).map (fun p => (p.1.encrypt8 value, p.2))

/-- `FhevmClientImpl.encrypt16`. -/
def encrypt16 (cfg : FhevmConfig) (env : ClientEnv) (s : ClientState) (value : Int) :
    Except String (String × ClientState) :=
  (ensureInitialized cfg env s).map (fun p => (p.1.encrypt16 value, p.2))

/-- `FhevmClientImpl.encrypt32`. -/
def encrypt32 (cfg : FhevmConfig) (env : ClientEnv) (s : ClientState) (value : Int) :
    Except String (String × ClientState) :=
  (ensureInitialized cfg env s).map (fun p => (p.1.encrypt32 value, p.2))

/-- `FhevmClientImpl.encrypt64`. -/
def encrypt64 (cfg : FhevmConfig) (env : ClientEnv) (s : ClientState) (value : Int) :
    Except String (String × ClientState) :=
  (ensureInitialized cfg env s).map (fun p => (p.1.encrypt64 value, p.2))

/-- `FhevmClientImpl.encryptBool`. -/
def encryptBool (cfg : FhevmConfig) (env : ClientEnv) (s : ClientState) (value : Bool) :
    Except String (String × ClientState) :=
  (ensureInitialized cfg env s).map (fun p => (p.1.encryptBool value, p.2))

/-- `FhevmClientImpl.encryptAddress`. -/
def encryptAddress (cfg : FhevmConfig) (env : ClientEnv) (s : ClientState) (value : String) :
    Except String (String × ClientState) :=
  (ensureInitialized cfg env s).map (fun p => (p.1.encryptAddress value, p.2))

/-- Fields of `EncryptedInputBuilderImpl`: the bound addresses and the
append-only `inputs` array. These are ALL of the class's own mutable
fields — the source class holds no finalized/spent flag. -/
structure Builder where
  contractAddress : String
  userAddress : String
  inputs : List Input
  deriving DecidableEq, Repr

/-- `FhevmClientImpl.createEncryptedInput`: a fresh builder bound to the
two addresses with an empty `inputs` array. -/
def createEncryptedInput (contractAddress userAddress : String) : Builder :=
  ⟨contractAddress, userAddress, []⟩

/-- `EncryptedInputBuilderImpl.add8`: `this.inputs.push({type: 'euint8',
value}); return this`. -/
def Builder.add8 (b : Builder) (v : Int) : Builder :=
  { b with inputs := b.inputs ++ [⟨"euint8", Value.num v⟩] }

/-- `EncryptedInputBuilderImpl.add16`. -/
def Builder.add16 (b : Builder) (v : Int) : Builder :=
  { b with inputs := b.inputs ++ [⟨"euint16", Value.num v⟩] }

/-- `EncryptedInputBuilderImpl.add32`. -/
def Builder.add32 (b : Builder) (v : Int) : Builder :=
  { b with inputs := b.inputs ++ [⟨"euint32", Value.num v⟩] }

/-- `EncryptedInputBuilderImpl.add64`. -/
def Builder.add64 (b : Builder) (v : Int) : Builder :=
  { b with inputs := b.inputs ++ [⟨"euint64", Value.num v⟩] }

/-- `EncryptedInputBuilderImpl.addBool`. -/
def Builder.addBool (b : Builder) (v : Bool) : Builder :=
  { b with inputs := b.inputs ++ [⟨"ebool", Value.bool v⟩] }

/-- `EncryptedInputBuilderImpl.addAddress`. -/
def Builder.addAddress (b : Builder) (v : String) : Builder :=
  { b with inputs := b.inputs ++ [⟨"eaddress", Value.str v⟩] }

/-- The `switch (type)` in the replay loop of
`EncryptedInputBuilderImpl.getEncrypted`: dispatch one accumulated input
to the engine builder's matching add-method; an unrecognized tag falls
through the switch and is silently skipped. -/
def replayInput (eb : EngineInputBuilder) (i : Input) : EngineInputBuilder :=
  match i.type with
  | "euint8" => eb.add8 i.value
  | "euint16" => eb.add16 i.value
  | "euint32" => eb.add32 i.value
  | "euint64" => eb.add64 i.value
  | "ebool" => eb.addBool i.value
  | "eaddress" => eb.addAddress i.value
  | _ => eb

/-- `EncryptedInputBuilderImpl.getEncrypted`: obtain the engine via the
stored `getInstance` thunk (the client's `ensureInitialized`), create the
engine's batch builder bound to the two addresses, replay all accumulated
inputs in order, and call the engine builder's `encrypt()`. The builder's
own fields are left untouched. -/
def Builder.getEncrypted (b : Builder) (cfg : FhevmConfig) (env : ClientEnv)
    (s : ClientState) : Except String (EncryptedInput × ClientState) :=
  match ensureInitialized cfg env s with
  | Except.error e => Except.error e
  | Except.ok (inst, s') =>
      let input := inst.createEncryptedInput b.contractAddress b.userAddress
      let input := b.inputs.foldl replayInput input
      Except.ok (input.encrypt, s')

/-- `DecryptionRequest` from `core/types.ts`. -/
structure DecryptionRequest where
  requestId : Nat
  ciphertext : String
  contractAddress : String
  timestamp : Nat
  deriving DecidableEq, Repr

/-- `FhevmClientImpl.requestDecryption`: a purely local construction with
`requestId = BigInt(Date.now())` and `timestamp = Date.now()`; `now` is the
explicit current time in milliseconds. No network call is made. -/
def requestDecryption (now : Nat) (ciphertext contractAddress : String) :
    DecryptionRequest :=
  { requestId := now
    ciphertext := ciphertext
    contractAddress := contractAddress
    timestamp := now }

/-- `const maxAttempts = 30` in `awaitDecryption`. -/
def maxAttempts : Nat := 30

/-- `const delayMs = 2000` in `awaitDecryption`. -/
def delayMs : Nat := 2000

deriving instance DecidableEq for Except

/-- Instrumented outcome of the polling loop: the returned value or thrown
error, the number of poll attempts performed, and the milliseconds spent in
`setTimeout` delays. -/
structure PollOutcome where
  result : Except String (Option Value)
  attempts : Nat
  totalDelayMs : Nat
  deriving DecidableEq, Repr

/-- The `for` loop of `FhevmClientImpl.awaitDecryption`: `fuel` is the
number of iterations left, `i` the attempts already made, `d` the delay
milliseconds already spent. Each iteration fetches once; a thrown fetch
error (`none`) is caught and swallowed; an `ok` response returns
`data.value` at once; any other response falls through. Every
non-returning iteration then awaits the fixed 2000 ms delay — including
the final one, after which the timeout error is thrown. -/
def pollLoop (poll : Nat → Option PollResponse) (requestId : Nat) :
    Nat → Nat → Nat → PollOutcome
  | 0, i, d =>
      ⟨Except.error ("Decryption timeout for request " ++ toString requestId), i, d⟩
  | fuel + 1, i, d =>
      match poll i with
      | some r =>
          if r.ok then ⟨Except.ok r.value, i + 1, d⟩
          else pollLoop poll requestId fuel (i + 1) (d + delayMs)
      | none => pollLoop poll requestId fuel (i + 1) (d + delayMs)

/-- `FhevmClientImpl.awaitDecryption`: throws `'Gateway URL not
configured'` when the resolved gateway URL is falsy (`if (!gatewayUrl)`:
undefined or the empty string), then runs the fixed 30-iteration poll
loop. The source function takes no timeout or poll-interval options — its
only parameter is `requestId`. -/
def awaitDecryption (cfg : FhevmConfig) (env : ClientEnv) (requestId : Nat) :
    Except String PollOutcome :=
  match jsOr cfg.gatewayUrl cfg.network.gatewayUrl with
  | none => Except.error "Gateway URL not configured"
  | some gatewayUrl =>
      if gatewayUrl = "" then Except.error "Gateway URL not configured"
      else Except.ok (pollLoop env.fetchDecrypt requestId maxAttempts 0 0)

/-- Reified `addX` call against the SDK builder, used to quantify over all
call sequences a caller can make. -/
inductive AddOp where
  | add8 (v : Int)
  | add16 (v : Int)
  | add32 (v : Int)
  | add64 (v : Int)
  | addBool (b : Bool)
  | addAddress (s : String)
  deriving DecidableEq, Repr

/-- Apply one reified `addX` call to the SDK builder. -/
def applyOp (b : Builder) : AddOp → Builder
  | AddOp.add8 v => b.add8 v
  | AddOp.add16 v => b.add16 v
  | AddOp.add32 v => b.add32 v
  | AddOp.add64 v => b.add64 v
  | AddOp.addBool v => b.addBool v
  | AddOp.addAddress v => b.addAddress v

/-- Apply a chain of `addX` calls left to right (the chaining order of the
fluent interface). -/
def applyOps (b : Builder) (ops : List AddOp) : Builder :=
  ops.foldl applyOp b

/-- The `{type, value}` record that one `addX` call pushes onto
`this.inputs`. -/
def AddOp.toInput : AddOp → Input
  | AddOp.add8 v => ⟨"euint8", Value.num v⟩
  | AddOp.add16 v => ⟨"euint16", Value.num v⟩
  | AddOp.add32 v => ⟨"euint32", Value.num v⟩
  | AddOp.add64 v => ⟨"euint64", Value.num v⟩
  | AddOp.addBool v => ⟨"ebool", Value.bool v⟩
  | AddOp.addAddress v => ⟨"eaddress", Value.str v⟩

/-- The engine add-call that the replay loop issues for one accumulated
`addX` call. -/
def AddOp.toEngineCall : AddOp → EngineCall
  | AddOp.add8 v => ("add8", Value.num v)
  | AddOp.add16 v => ("add16", Value.num v)
  | AddOp.add32 v => ("add32", Value.num v)
  | AddOp.add64 v => ("add64", Value.num v)
  | AddOp.addBool v => ("addBool", Value.bool v)
  | AddOp.addAddress v => ("addAddress", Value.str v)

/-!
Interleaving model of `ensureInitialized` for the initialization race.

The JavaScript runtime is single-threaded and cooperative: control can only
change hands at an `await`. One run of `ensureInitialized` on an
uninitialized client therefore decomposes into three atomic segments:

1. evaluate the guard `!this.instance || !this.isInitialized`, and when it
   holds, issue the public-key fetch (the `await fetch(...)` inside
   `getPublicKey`); when it does not hold, return the memoized instance;
2. after the fetch resolves, call `createInstance(...)` (the next `await`);
3. after construction resolves, assign `this.instance`, set
   `this.isInitialized = true` and return.

`stepInit` is this segment-level small-step relation over the shared
`FhevmClientImpl` fields plus an instrumentation counter of issued
public-key fetches; `runRace` interleaves two callers under an explicit
schedule (`true` steps caller A, `false` steps caller B).
-/

/-- Program counter of one in-flight `ensureInitialized` call; `done true`
means it returned the already-memoized instance without initializing. -/
inductive InitPC where
  | start
  | fetching
  | creating
  | done (memoized : Bool)
  deriving DecidableEq, Repr

/-- Shared client fields plus the count of public-key fetches issued. -/
structure RaceState where
  client : ClientState
  fetchCount : Nat

/-- One atomic segment of `ensureInitialized` (see the module comment just
above); `stub` is the engine `createInstance` constructs. -/
def stepInit (stub : FhevmjsInstance) (s : RaceState) : InitPC → RaceState × InitPC
  | InitPC.start =>
      if s.client.inst.isNone || !s.client.isInitialized then
        ({ s with fetchCount := s.fetchCount + 1 }, InitPC.fetching)
      else
        (s, InitPC.done true)
  | InitPC.fetching => (s, InitPC.creating)
  | InitPC.creating => ({ s with client := ⟨some stub, true⟩ }, InitPC.done false)
  | InitPC.done b => (s, InitPC.done b)

/-- Run two concurrent `ensureInitialized` callers A and B under a
schedule: `true` lets A take its next atomic segment, `false` lets B. -/
def runRace (stub : FhevmjsInstance) :
    List Bool → RaceState → InitPC → InitPC → RaceState × InitPC × InitPC
  | [], s, a, b => (s, a, b)
  | true :: rest, s, a, b =>
      let p := stepInit stub s a
      runRace stub rest p.1 p.2 b
  | false :: rest, s, a, b =>
      let p := stepInit stub s b
      runRace stub rest p.1 a p.2

/-!
Concrete stubs used by witnesses and counterexamples.
-/

/-- Printable rendering of an untyped value, used by the stub engine to
make handles distinguishable. -/
def valueText : Value → String
  | Value.num n => toString n
  | Value.bool b => toString b
  | Value.str s => s

/-- Concrete engine stub: every operation returns a string recording the
call, so distinct calls are observable. -/
def stubEngine : FhevmjsInstance where
  encrypt8 v := "enc8(" ++ toString v ++ ")"
  encrypt16 v := "enc16(" ++ toString v ++ ")"
  encrypt32 v := "enc32(" ++ toString v ++ ")"
  encrypt64 v := "enc64(" ++ toString v ++ ")"
  encryptBool v := "encBool(" ++ toString v ++ ")"
  encryptAddress v := "encAddr(" ++ v ++ ")"
  handleOf c := "handle(" ++ c.1 ++ "," ++ valueText c.2 ++ ")"
  proofOf cA uA calls :=
    "proof(" ++ cA ++ "," ++ uA ++ "," ++ toString calls.length ++ ")"

/-- Concrete environment stub: the key endpoint answers with a well-formed
key, every decrypt poll answers a non-ok response, and `createInstance`
yields `stubEngine`. -/
def stubEnv : ClientEnv where
  fetchKey _ := ⟨true, some "pubkey"⟩
  fetchDecrypt _ := some ⟨false, none, none⟩
  mkEngine _ := stubEngine

/-- Concrete client configuration over the `sepolia` preset, with no
overrides. -/
def testCfg : FhevmConfig :=
  { network := sepoliaNetwork
    gatewayUrl := none
    aclAddress := none
    kmsVerifierAddress := none }

/-!
Helper lemmas.
-/

lemma applyOp_eq (b : Builder) (op : AddOp) :
    applyOp b op = { b with inputs := b.inputs ++ [op.toInput] } := by
  cases op <;> rfl

lemma applyOps_eq (b : Builder) (ops : List AddOp) :
    applyOps b ops = { b with inputs := b.inputs ++ ops.map AddOp.toInput } := by
  induction ops generalizing b with
  | nil => simp [applyOps]
  | cons op rest ih =>
      show applyOps (applyOp b op) rest = _
      rw [ih, applyOp_eq]
      simp

lemma replayInput_toInput (eb : EngineInputBuilder) (op : AddOp) :
    replayInput eb op.toInput = { eb with calls := eb.calls ++ [op.toEngineCall] } := by
  cases op <;> rfl

lemma replay_foldl (eb : EngineInputBuilder) (ops : List AddOp) :
    (ops.map AddOp.toInput).foldl replayInput eb =
      { eb with calls := eb.calls ++ ops.map AddOp.toEngineCall } := by
  induction ops generalizing eb with
  | nil => simp
  | cons op rest ih =>
      simp only [List.map_cons, List.foldl_cons, replayInput_toInput, ih]
      simp

/-- Claim C1: `getEncrypted` replays the accumulated `(typeTag, value)`
pairs against the engine builder's corresponding add-methods in exactly
append order, so for every chain of `addX` calls the resulting `handles`
sequence has one handle per call, positionally corresponding to the call
sequence. -/
theorem finalize_replays_in_append_order (cfg : FhevmConfig) (env : ClientEnv)
    (s : ClientState) (inst : FhevmjsInstance) (s' : ClientState)
    (contractAddress userAddress : String) (ops : List AddOp)
    (h : ensureInitialized cfg env s = Except.ok (inst, s')) :
    Builder.getEncrypted (applyOps (createEncryptedInput contractAddress userAddress) ops)
        cfg env s =
      Except.ok
        ({ handles := (ops.map AddOp.toEngineCall).map inst.handleOf
           inputProof := inst.proofOf contractAddress userAddress
             (ops.map AddOp.toEngineCall) }, s') ∧
    ((ops.map AddOp.toEngineCall).map inst.handleOf).length = ops.length ∧
    ∀ k : Nat,
      ((ops.map AddOp.toEngineCall).map inst.handleOf)[k]? =
        (ops[k]?).map (fun op => inst.handleOf op.toEngineCall) := by
  refine ⟨?_, by simp, ?_⟩
  · unfold Builder.getEncrypted
    rw [h, applyOps_eq]
    simp only [createEncryptedInput, List.nil_append]
    rw [replay_foldl]
    simp [EngineInputBuilder.encrypt, FhevmjsInstance.createEncryptedInput]
  · intro k
    rw [List.getElem?_map, List.getElem?_map, Option.map_map]
    rfl

/-- Witness for C1 at the spec's example `[add32(500), add8(10),
addBool(true)]` against the concrete stub client. -/
theorem finalize_replays_in_append_order_witness :
    ensureInitialized testCfg stubEnv ClientState.fresh =
      Except.ok (stubEngine, ⟨some stubEngine, true⟩) ∧
    (Builder.getEncrypted
        (applyOps (createEncryptedInput "0xContract" "0xUser")
          [AddOp.add32 500, AddOp.add8 10, AddOp.addBool true])
        testCfg stubEnv ClientState.fresh).map (fun p => p.1.handles) =
      Except.ok ["handle(add32,500)", "handle(add8,10)", "handle(addBool,true)"] := by
  have h := finalize_replays_in_append_order testCfg stubEnv ClientState.fresh stubEngine
    ⟨some stubEngine, true⟩ "0xContract" "0xUser"
    [AddOp.add32 500, AddOp.add8 10, AddOp.addBool true] rfl
  refine ⟨rfl, ?_⟩
  rw [h.1]
  rfl

/-- Claim C2 counterexample: the scalar encrypt path performs no domain
validation — `encrypt8(-1)` and `encrypt8(256)` both succeed (the raw
value reaches the engine), and the builder's `add8(-1)` appends the raw
value instead of failing, contradicting the claimed `ValueOutOfRange`
failure at `value = -1` and `value = 2^bitwidth`. -/
theorem encrypt8_accepts_out_of_range :
    encrypt8 testCfg stubEnv ClientState.fresh (-1) =
      Except.ok ("enc8(-1)", ⟨some stubEngine, true⟩) ∧
    encrypt8 testCfg stubEnv ClientState.fresh 256 =
      Except.ok ("enc8(256)", ⟨some stubEngine, true⟩) ∧
    ((createEncryptedInput "0xC" "0xU").add8 (-1)).inputs =
      [⟨"euint8", Value.num (-1)⟩] :=
  ⟨rfl, rfl, rfl⟩

/-- Claim C2 (amended): no domain validation exists: for every
unsigned-integer tag, the scalar encrypt operation delegates any `Int`
value — in-range or not — unchanged to the engine and succeeds, and the
builder's add operation appends any value without failing. -/
theorem encrypt_passes_raw_values (cfg : FhevmConfig) (env : ClientEnv)
    (s : ClientState) (inst : FhevmjsInstance) (s' : ClientState)
    (h : ensureInitialized cfg env s = Except.ok (inst, s'))
    (v : Int) (b : Builder) :
    encrypt8 cfg env s v = Except.ok (inst.encrypt8 v, s') ∧
    encrypt16 cfg env s v = Except.ok (inst.encrypt16 v, s') ∧
    encrypt32 cfg env s v = Except.ok (inst.encrypt32 v, s') ∧
    encrypt64 cfg env s v = Except.ok (inst.encrypt64 v, s') ∧
    (b.add8 v).inputs = b.inputs ++ [⟨"euint8", Value.num v⟩] ∧
    (b.add16 v).inputs = b.inputs ++ [⟨"euint16", Value.num v⟩] ∧
    (b.add32 v).inputs = b.inputs ++ [⟨"euint32", Value.num v⟩] ∧
    (b.add64 v).inputs = b.inputs ++ [⟨"euint64", Value.num v⟩] := by
  refine ⟨?_, ?_, ?_, ?_, rfl, rfl, rfl, rfl⟩ <;>
    (simp only [encrypt8, encrypt16, encrypt32, encrypt64, h]; rfl)

/-- Witness for the amended C2, at the out-of-range boundary values `-1`
and `2^8 = 256` and the in-range boundaries `0` and `255`. -/
theorem encrypt_passes_raw_values_witness :
    ensureInitialized testCfg stubEnv ClientState.fresh =
      Except.ok (stubEngine, ⟨some stubEngine, true⟩) ∧
    encrypt8 testCfg stubEnv ClientState.fresh (-1) =
      Except.ok (stubEngine.encrypt8 (-1), ⟨some stubEngine, true⟩) ∧
    encrypt8 testCfg stubEnv ClientState.fresh 256 =
      Except.ok (stubEngine.encrypt8 256, ⟨some stubEngine, true⟩) ∧
    encrypt8 testCfg stubEnv ClientState.fresh 0 =
      Except.ok (stubEngine.encrypt8 0, ⟨some stubEngine, true⟩) ∧
    encrypt8 testCfg stubEnv ClientState.fresh 255 =
      Except.ok (stubEngine.encrypt8 255, ⟨some stubEngine, true⟩) :=
  ⟨rfl,
   (encrypt_passes_raw_values testCfg stubEnv ClientState.fresh stubEngine
      ⟨some stubEngine, true⟩ rfl (-1) (createEncryptedInput "c" "u")).1,
   (encrypt_passes_raw_values testCfg stubEnv ClientState.fresh stubEngine
      ⟨some stubEngine, true⟩ rfl 256 (createEncryptedInput "c" "u")).1,
   (encrypt_passes_raw_values testCfg stubEnv ClientState.fresh stubEngine
      ⟨some stubEngine, true⟩ rfl 0 (createEncryptedInput "c" "u")).1,
   (encrypt_passes_raw_values testCfg stubEnv ClientState.fresh stubEngine
      ⟨some stubEngine, true⟩ rfl 255 (createEncryptedInput "c" "u")).1⟩

lemma ensureInitialized_ok_state (cfg : FhevmConfig) (env : ClientEnv)
    (s : ClientState) (inst : FhevmjsInstance) (s' : ClientState)
    (h : ensureInitialized cfg env s = Except.ok (inst, s')) :
    s' = ⟨some inst, true⟩ := by
  unfold ensureInitialized at h
  by_cases hc : (s.inst.isNone || !s.isInitialized) = true
  · rw [if_pos hc] at h
    cases hk : getPublicKey cfg env with
    | error e => rw [hk] at h; cases h
    | ok key =>
        rw [hk] at h
        simp only [Except.ok.injEq, Prod.mk.injEq] at h
        rw [← h.1, ← h.2]
  · rw [if_neg hc] at h
    cases hsi : s.inst with
    | none => rw [hsi] at h; cases h
    | some i =>
        rw [hsi] at h
        simp only [Except.ok.injEq, Prod.mk.injEq] at h
        have hinit : s.isInitialized = true := by
          by_contra hni
          exact hc (by simp [Bool.not_eq_true] at hni ⊢; simp [hni])
        rw [← h.2]
        cases s with
        | mk si sb =>
            simp only at hsi hinit
            rw [hsi, hinit, ← h.1]

/-- Claim C3 counterexample: calling `getEncrypted` a second time on the
same builder (from the client state the first call produced) does not fail
with `BuilderAlreadyFinalized` — it succeeds and returns the same result.
The source class holds no spent flag. -/
theorem getEncrypted_second_call_not_rejected :
    Builder.getEncrypted ((createEncryptedInput "0xC" "0xU").add32 500) testCfg stubEnv
        ClientState.fresh =
      Except.ok (⟨["handle(add32,500)"], "proof(0xC,0xU,1)"⟩, ⟨some stubEngine, true⟩) ∧
    Builder.getEncrypted ((createEncryptedInput "0xC" "0xU").add32 500) testCfg stubEnv
        ⟨some stubEngine, true⟩ =
      Except.ok (⟨["handle(add32,500)"], "proof(0xC,0xU,1)"⟩, ⟨some stubEngine, true⟩) :=
  ⟨rfl, rfl⟩

/-- Claim C3 (amended): a builder is never spent: whenever `getEncrypted`
succeeds, calling it again (from the client state the first call produced)
succeeds as well and returns the identical result; no
`BuilderAlreadyFinalized` failure exists in the code. -/
theorem getEncrypted_repeatable (cfg : FhevmConfig) (env : ClientEnv)
    (s : ClientState) (b : Builder) (r : EncryptedInput) (s' : ClientState)
    (h : Builder.getEncrypted b cfg env s = Except.ok (r, s')) :
    Builder.getEncrypted b cfg env s' = Except.ok (r, s') := by
  unfold Builder.getEncrypted at h ⊢
  cases he : ensureInitialized cfg env s with
  | error e => rw [he] at h; cases h
  | ok p =>
      obtain ⟨inst, s''⟩ := p
      rw [he] at h
      simp only [Except.ok.injEq, Prod.mk.injEq] at h
      have hst := ensureInitialized_ok_state cfg env s inst s'' he
      rw [← h.2, hst]
      rw [← h.1]
      rfl

/-- Witness for the amended C3 on a concrete builder and stub client. -/
theorem getEncrypted_repeatable_witness :
    Builder.getEncrypted ((createEncryptedInput "0xC" "0xU").addBool true) testCfg stubEnv
        ClientState.fresh =
      Except.ok (⟨["handle(addBool,true)"], "proof(0xC,0xU,1)"⟩, ⟨some stubEngine, true⟩) ∧
    Builder.getEncrypted ((createEncryptedInput "0xC" "0xU").addBool true) testCfg stubEnv
        ⟨some stubEngine, true⟩ =
      Except.ok (⟨["handle(addBool,true)"], "proof(0xC,0xU,1)"⟩, ⟨some stubEngine, true⟩) :=
  ⟨rfl,
   getEncrypted_repeatable testCfg stubEnv ClientState.fresh
     ((createEncryptedInput "0xC" "0xU").addBool true)
     ⟨["handle(addBool,true)"], "proof(0xC,0xU,1)"⟩ ⟨some stubEngine, true⟩ rfl⟩

/-- A poll attempt counts as successful exactly when `fetch` did not throw
and `response.ok` holds — the only condition the source inspects. -/
def isOkResp : Option PollResponse → Bool
  | some r => r.ok
  | none => false

lemma pollLoop_neverOk (poll : Nat → Option PollResponse) (reqId : Nat)
    (h : ∀ n, isOkResp (poll n) = false) :
    ∀ fuel i d, pollLoop poll reqId fuel i d =
      ⟨Except.error ("Decryption timeout for request " ++ toString reqId),
       i + fuel, d + fuel * delayMs⟩ := by
  intro fuel
  induction fuel with
  | zero => intro i d; simp [pollLoop]
  | succ fuel ih =>
      intro i d
      cases hp : poll i with
      | none =>
          simp only [pollLoop, hp]
          rw [ih]
          have hd : delayMs = 2000 := rfl
          rw [hd]
          congr 1 <;> omega
      | some r =>
          have hro : r.ok = false := by
            have hi := h i
            rwa [hp] at hi
          simp only [pollLoop, hp, hro, Bool.false_eq_true, if_false]
          rw [ih]
          have hd : delayMs = 2000 := rfl
          rw [hd]
          congr 1 <;> omega

lemma pollLoop_attempts_le (poll : Nat → Option PollResponse) (reqId : Nat) :
    ∀ fuel i d, (pollLoop poll reqId fuel i d).attempts ≤ i + fuel := by
  intro fuel
  induction fuel with
  | zero => intro i d; simp [pollLoop]
  | succ fuel ih =>
      intro i d
      cases hp : poll i with
      | none =>
          simp only [pollLoop, hp]
          exact le_trans (ih (i + 1) (d + delayMs)) (by omega)
      | some r =>
          simp only [pollLoop, hp]
          by_cases hro : r.ok = true
          · simp only [hro, if_true]
            omega
          · simp only [hro, if_false]
            exact le_trans (ih (i + 1) (d + delayMs)) (by omega)

/-- Claim C5 counterexample: `awaitDecryption` accepts no
`{timeout, pollInterval}` options (its only parameter is the request id),
and with a never-succeeding gateway it throws the timeout error only after
30 fixed 2000 ms delays — 60000 ms of waiting, which is neither the claimed
30000 ms default deadline nor within a bounded margin of a 50 ms timeout. -/
theorem awaitDecryption_ignores_caller_timeout :
    awaitDecryption testCfg stubEnv 7 =
      Except.ok ⟨Except.error "Decryption timeout for request 7", 30, 60000⟩ ∧
    (60000 : Nat) ≠ 30000 ∧ (50 : Nat) < 60000 :=
  ⟨rfl, by decide, by decide⟩

/-- Claim C5 (amended): `awaitDecryption` has no timeout or poll-interval
options; whenever a gateway URL resolves and no poll attempt succeeds, it
returns the timeout error after exactly `maxAttempts = 30` attempts and
`30 * 2000 = 60000` ms of delays, independent of any caller intent. -/
theorem awaitDecryption_fixed_schedule (cfg : FhevmConfig) (env : ClientEnv)
    (reqId : Nat) (u : String)
    (hg : jsOr cfg.gatewayUrl cfg.network.gatewayUrl = some u) (hu : u ≠ "")
    (hne : ∀ n, isOkResp (env.fetchDecrypt n) = false) :
    awaitDecryption cfg env reqId =
      Except.ok ⟨Except.error ("Decryption timeout for request " ++ toString reqId),
                 maxAttempts, maxAttempts * delayMs⟩ ∧
    maxAttempts * delayMs = 60000 := by
  constructor
  · unfold awaitDecryption
    rw [hg]
    simp only [if_neg hu]
    rw [pollLoop_neverOk env.fetchDecrypt reqId hne maxAttempts 0 0]
    simp
  · rfl

/-- Witness for the amended C5 against the stub client whose gateway never
succeeds. -/
theorem awaitDecryption_fixed_schedule_witness :
    awaitDecryption testCfg stubEnv 3 =
      Except.ok ⟨Except.error "Decryption timeout for request 3", 30, 60000⟩ :=
  (awaitDecryption_fixed_schedule testCfg stubEnv 3 "https://gateway.sepolia.zama.ai"
    rfl (by decide) (fun _ => rfl)).1

/-- Environment whose gateway explicitly reports the request as rejected
on every poll: a non-ok response carrying a rejection reason in its body. -/
def rejectingEnv : ClientEnv :=
  { stubEnv with fetchDecrypt := fun _ => some ⟨false, none, some "request rejected"⟩ }

/-- Claim C6 counterexample: a gateway that explicitly reports the request
as rejected on every poll does not make `awaitDecryption` fail with
`DecryptionRejected` immediately — all 30 poll attempts are performed and
the final error is the timeout, with the rejection reason never read. -/
theorem gateway_rejection_not_terminal :
    awaitDecryption testCfg rejectingEnv 9 =
      Except.ok ⟨Except.error "Decryption timeout for request 9", 30, 60000⟩ ∧
    (30 : Nat) ≠ 1 :=
  ⟨rfl, by decide⟩

/-- Claim C6 (amended): the poll loop never reads a rejection body: an
explicit rejection response is handled exactly like a thrown transient
network error — swallowed, with polling continuing to the fixed timeout —
while a transient error followed by a success is recovered from, the
success value being returned on the following attempt. -/
theorem rejection_treated_as_transient (reqId : Nat) (r : PollResponse)
    (h : r.ok = false) (poll : Nat → Option PollResponse) (r1 : PollResponse)
    (h0 : poll 0 = none) (h1 : poll 1 = some r1) (hr1 : r1.ok = true) :
    pollLoop (fun _ => some r) reqId maxAttempts 0 0 =
      pollLoop (fun _ => none) reqId maxAttempts 0 0 ∧
    pollLoop (fun _ => some r) reqId maxAttempts 0 0 =
      ⟨Except.error ("Decryption timeout for request " ++ toString reqId),
       maxAttempts, maxAttempts * delayMs⟩ ∧
    pollLoop poll reqId maxAttempts 0 0 = ⟨Except.ok r1.value, 2, delayMs⟩ := by
  have hrej : ∀ n : Nat, isOkResp ((fun _ => some r) n) = false := by
    intro n; simpa [isOkResp] using h
  have hnet : ∀ n : Nat, isOkResp ((fun _ => none) n) = false := fun _ => rfl
  refine ⟨?_, ?_, ?_⟩
  · rw [pollLoop_neverOk _ reqId hrej maxAttempts 0 0,
        pollLoop_neverOk _ reqId hnet maxAttempts 0 0]
  · rw [pollLoop_neverOk _ reqId hrej maxAttempts 0 0]
    simp
  · have e1 : pollLoop poll reqId (29 + 1) 0 0 =
        pollLoop poll reqId 29 (0 + 1) (0 + delayMs) := by
      simp only [pollLoop, h0]
    have e2 : pollLoop poll reqId (28 + 1) (0 + 1) (0 + delayMs) =
        ⟨Except.ok r1.value, 0 + 1 + 1, 0 + delayMs⟩ := by
      simp only [pollLoop]
      have : poll (0 + 1) = some r1 := by simpa using h1
      simp only [this, hr1, if_true]
    calc pollLoop poll reqId maxAttempts 0 0
        = pollLoop poll reqId 29 (0 + 1) (0 + delayMs) := e1
      _ = ⟨Except.ok r1.value, 0 + 1 + 1, 0 + delayMs⟩ := e2
      _ = ⟨Except.ok r1.value, 2, delayMs⟩ := by simp

/-- Witness for the amended C6: an always-rejecting gateway times out like
a network-error gateway, and a single transient error before a success is
recovered from. -/
theorem rejection_treated_as_transient_witness :
    pollLoop (fun _ => some ⟨false, none, some "request rejected"⟩) 4 maxAttempts 0 0 =
      pollLoop (fun _ => none) 4 maxAttempts 0 0 ∧
    pollLoop (fun _ => some ⟨false, none, some "request rejected"⟩) 4 maxAttempts 0 0 =
      ⟨Except.error "Decryption timeout for request 4", 30, 60000⟩ ∧
    pollLoop (fun n => if n = 0 then none else some ⟨true, some (Value.num 42), none⟩)
        4 maxAttempts 0 0 =
      ⟨Except.ok (some (Value.num 42)), 2, 2000⟩ :=
  rejection_treated_as_transient 4 ⟨false, none, some "request rejected"⟩ rfl
    (fun n => if n = 0 then none else some ⟨true, some (Value.num 42), none⟩)
    ⟨true, some (Value.num 42), none⟩ rfl rfl rfl

/-- Claim C10: the poll loop always terminates: it performs at most 30
poll attempts; when no attempt yields an HTTP-ok response it throws the
decryption-timeout error after the 30th attempt having waited the fixed
2000 ms delay after every attempt including the last (60000 ms in total);
and `awaitDecryption` is exactly this fixed loop — it takes no
caller-supplied timeout at all. -/
theorem pollLoop_bounded_termination (poll : Nat → Option PollResponse) (reqId : Nat)
    (cfg : FhevmConfig) (env : ClientEnv) (u : String)
    (hg : jsOr cfg.gatewayUrl cfg.network.gatewayUrl = some u) (hu : u ≠ "") :
    (pollLoop poll reqId maxAttempts 0 0).attempts ≤ maxAttempts ∧
    ((∀ n, isOkResp (poll n) = false) →
      pollLoop poll reqId maxAttempts 0 0 =
        ⟨Except.error ("Decryption timeout for request " ++ toString reqId),
         maxAttempts, maxAttempts * delayMs⟩) ∧
    awaitDecryption cfg env reqId =
      Except.ok (pollLoop env.fetchDecrypt reqId maxAttempts 0 0) := by
  refine ⟨?_, ?_, ?_⟩
  · simpa using pollLoop_attempts_le poll reqId maxAttempts 0 0
  · intro hne
    rw [pollLoop_neverOk poll reqId hne maxAttempts 0 0]
    simp
  · unfold awaitDecryption
    rw [hg]
    simp only [if_neg hu]

/-- Witness for C10 against the stub client whose gateway never succeeds. -/
theorem pollLoop_bounded_termination_witness :
    (pollLoop stubEnv.fetchDecrypt 11 maxAttempts 0 0).attempts ≤ maxAttempts ∧
    pollLoop stubEnv.fetchDecrypt 11 maxAttempts 0 0 =
      ⟨Except.error "Decryption timeout for request 11", 30, 60000⟩ ∧
    awaitDecryption testCfg stubEnv 11 =
      Except.ok (pollLoop stubEnv.fetchDecrypt 11 maxAttempts 0 0) := by
  have h := pollLoop_bounded_termination stubEnv.fetchDecrypt 11 testCfg stubEnv
    "https://gateway.sepolia.zama.ai" rfl (by decide)
  exact ⟨h.1, h.2.1 (fun _ => rfl), h.2.2⟩

/-- Claim C4 counterexample: the `!this.instance || !this.isInitialized`
guard is a non-atomic check-then-set: under the interleaving in which the
second caller evaluates the guard while the first is suspended at its key
fetch, two concurrent first calls on one fresh client issue two public-key
fetches, not one, and both run the full initialization. -/
theorem init_race_two_fetches :
    (runRace stubEngine [true, false, true, true, false, false] ⟨ClientState.fresh, 0⟩
        InitPC.start InitPC.start).1.fetchCount = 2 ∧
    (runRace stubEngine [true, false, true, true, false, false] ⟨ClientState.fresh, 0⟩
        InitPC.start InitPC.start).2 = (InitPC.done false, InitPC.done false) :=
  ⟨rfl, rfl⟩

/-- Claim C4 (amended): initialization is lazily memoized for sequential
use — on an initialized client `ensureInitialized` returns the stored
engine unchanged and consults the environment (hence the network) not at
all — but the guard is not race-safe: a caller that starts after a
completed initialization performs no fetch (one fetch in total), while two
interleaved first calls perform two fetches. -/
theorem init_memoized_sequentially_not_concurrently :
    (∀ (cfg : FhevmConfig) (env : ClientEnv) (inst : FhevmjsInstance),
      ensureInitialized cfg env ⟨some inst, true⟩ =
        Except.ok (inst, ⟨some inst, true⟩)) ∧
    (∀ (cfg : FhevmConfig) (env env' : ClientEnv) (inst : FhevmjsInstance),
      ensureInitialized cfg env ⟨some inst, true⟩ =
        ensureInitialized cfg env' ⟨some inst, true⟩) ∧
    (runRace stubEngine [true, true, true, false] ⟨ClientState.fresh, 0⟩
        InitPC.start InitPC.start).1.fetchCount = 1 ∧
    (runRace stubEngine [true, true, true, false] ⟨ClientState.fresh, 0⟩
        InitPC.start InitPC.start).2.2 = InitPC.done true ∧
    (runRace stubEngine [true, false, true, true, false, false] ⟨ClientState.fresh, 0⟩
        InitPC.start InitPC.start).1.fetchCount = 2 :=
  ⟨fun _ _ _ => rfl, fun _ _ _ _ => rfl, rfl, rfl, rfl⟩

/-- Environment whose key endpoint answers with a non-success status and a
body lacking the `publicKey` field. -/
def badKeyEnv : ClientEnv := { stubEnv with fetchKey := fun _ => ⟨false, none⟩ }

/-- Claim C7 counterexample: a non-success HTTP status combined with a body
lacking the public-key field does not make the key fetch fail with
`PublicKeyFetchFailed`: `getPublicKey` succeeds returning the absent field
(`undefined`), and initialization proceeds with it. -/
theorem getPublicKey_no_response_validation :
    getPublicKey testCfg badKeyEnv = Except.ok none ∧
    ensureInitialized testCfg badKeyEnv ClientState.fresh =
      Except.ok (stubEngine, ⟨some stubEngine, true⟩) :=
  ⟨rfl, rfl⟩

/-- Claim C7 (amended): on first use the key fetch resolves the effective
gateway endpoint as the caller's override when truthy (JavaScript `||`),
otherwise the network profile's endpoint, and fails with
`'Gateway URL not configured'` whenever the resolved endpoint is falsy —
undefined or the empty string (`if (!gatewayUrl)`); with a truthy endpoint
it issues the GET to `{gatewayEndpoint}/fhe-key` and returns the body's
`publicKey` field as-is, with no check of the HTTP status or of the
field's presence. -/
theorem getPublicKey_resolution (cfg : FhevmConfig) (env : ClientEnv) :
    (∀ u : String, cfg.gatewayUrl = some u → u ≠ "" →
      getPublicKey cfg env = Except.ok (env.fetchKey (u ++ "/fhe-key")).publicKey) ∧
    (∀ u : String, (cfg.gatewayUrl = none ∨ cfg.gatewayUrl = some "") →
      cfg.network.gatewayUrl = some u → u ≠ "" →
      getPublicKey cfg env = Except.ok (env.fetchKey (u ++ "/fhe-key")).publicKey) ∧
    ((cfg.gatewayUrl = none ∨ cfg.gatewayUrl = some "") →
      cfg.network.gatewayUrl = none →
      getPublicKey cfg env = Except.error "Gateway URL not configured") ∧
    ((cfg.gatewayUrl = none ∨ cfg.gatewayUrl = some "") →
      cfg.network.gatewayUrl = some "" →
      getPublicKey cfg env = Except.error "Gateway URL not configured") := by
  refine ⟨?_, ?_, ?_, ?_⟩
  · intro u hu hne
    simp [getPublicKey, jsOr, hu, hne]
  · intro u hor hnet hne
    cases hor with
    | inl hnone => simp [getPublicKey, jsOr, hnone, hnet, hne]
    | inr hempty => simp [getPublicKey, jsOr, hempty, hnet, hne]
  · intro hor hnet
    cases hor with
    | inl hnone => simp only [getPublicKey, jsOr, hnone, hnet]
    | inr hempty => simp [getPublicKey, jsOr, hempty, hnet]
  · intro hor hnet
    cases hor with
    | inl hnone => simp [getPublicKey, jsOr, hnone, hnet]
    | inr hempty => simp [getPublicKey, jsOr, hempty, hnet]

/-- Configuration carrying a caller override of the gateway endpoint. -/
def overrideCfg : FhevmConfig := { testCfg with gatewayUrl := some "https://gw.example" }

/-- Configuration over a profile with no gateway endpoint and no
override. -/
def noGatewayCfg : FhevmConfig :=
  { network :=
      { chainId := 31337
        name := "Local"
        rpcUrl := "http://localhost:8545"
        gatewayUrl := none
        aclAddress := none
        kmsVerifierAddress := none }
    gatewayUrl := none
    aclAddress := none
    kmsVerifierAddress := none }

/-- Configuration whose profile carries an empty-string gateway endpoint
and no override: the resolved endpoint is falsy. -/
def emptyGatewayCfg : FhevmConfig :=
  { network :=
      { chainId := 31337
        name := "Local"
        rpcUrl := "http://localhost:8545"
        gatewayUrl := some ""
        aclAddress := none
        kmsVerifierAddress := none }
    gatewayUrl := none
    aclAddress := none
    kmsVerifierAddress := none }

/-- Witness for the amended C7: the override wins when truthy, the profile
endpoint is used otherwise, and the missing-endpoint error is raised both
when neither exists and when the resolved endpoint is the empty string. -/
theorem getPublicKey_resolution_witness :
    getPublicKey overrideCfg stubEnv = Except.ok (some "pubkey") ∧
    getPublicKey testCfg stubEnv = Except.ok (some "pubkey") ∧
    getPublicKey noGatewayCfg stubEnv = Except.error "Gateway URL not configured" ∧
    getPublicKey emptyGatewayCfg stubEnv = Except.error "Gateway URL not configured" :=
  ⟨(getPublicKey_resolution overrideCfg stubEnv).1 "https://gw.example" rfl (by decide),
   (getPublicKey_resolution testCfg stubEnv).2.1 "https://gateway.sepolia.zama.ai"
     (Or.inl rfl) rfl (by decide),
   (getPublicKey_resolution noGatewayCfg stubEnv).2.2.1 (Or.inl rfl) rfl,
   (getPublicKey_resolution emptyGatewayCfg stubEnv).2.2.2 (Or.inl rfl) rfl⟩

/-- Claim C8 counterexample: `requestId = BigInt(Date.now())`, so two
distinct requests created within the same millisecond — which can both be
concurrently outstanding — share the same `requestId`. -/
theorem requestId_collision_same_millisecond :
    (requestDecryption 1700000000000 "0xaaa" "0xCoffee").requestId =
      (requestDecryption 1700000000000 "0xbbb" "0xCoffee").requestId ∧
    requestDecryption 1700000000000 "0xaaa" "0xCoffee" ≠
      requestDecryption 1700000000000 "0xbbb" "0xCoffee" :=
  ⟨rfl, by decide⟩

/-- Claim C8 (amended): `requestDecryption` constructs its request locally
and synchronously with `createdAt = now` and `requestId` derived from the
same timestamp; request ids are therefore fresh exactly between requests
created at distinct milliseconds — two requests in the same millisecond
collide. -/
theorem requestDecryption_timestamp_derived (t t' : Nat) (c c' a a' : String) :
    requestDecryption t c a =
      { requestId := t, ciphertext := c, contractAddress := a, timestamp := t } ∧
    ((requestDecryption t c a).requestId = (requestDecryption t' c' a').requestId ↔
      t = t') :=
  ⟨rfl, Iff.rfl⟩

/-- Claim C9: the registry resolves `sepolia` and `zamaDevnet` to distinct
profiles with distinct chain identifiers (11155111 and 9000), and every
name that is not one of the pre-registered identifiers — `doesNotExist`
among them — fails with `UnknownNetwork`. -/
theorem networks_lookup_distinct_profiles :
    lookup "sepolia" = Except.ok sepoliaNetwork ∧
    lookup "zamaDevnet" = Except.ok zamaDevnetNetwork ∧
    sepoliaNetwork ≠ zamaDevnetNetwork ∧
    sepoliaNetwork.chainId = 11155111 ∧
    zamaDevnetNetwork.chainId = 9000 ∧
    sepoliaNetwork.chainId ≠ zamaDevnetNetwork.chainId ∧
    (∀ name : String, name ∉ NETWORKS.map Prod.fst →
      lookup name = Except.error "UnknownNetwork") ∧
    lookup "doesNotExist" = Except.error "UnknownNetwork" := by
  refine ⟨rfl, rfl, by decide, rfl, rfl, by decide, ?_, rfl⟩
  intro name hname
  have hfind : List.find? (fun p => p.1 = name) NETWORKS = none := by
    rw [List.find?_eq_none]
    intro x hx
    simp only [decide_eq_true_eq]
    intro heq
    exact hname (List.mem_map.mpr ⟨x, hx, heq⟩)
  simp [lookup, NETWORKS.find, hfind]

/-- Witness for C9: the universal `UnknownNetwork` clause applied at the
unregistered name `doesNotExist`, next to a registered lookup. -/
theorem networks_lookup_distinct_profiles_witness :
    "doesNotExist" ∉ NETWORKS.map Prod.fst ∧
    lookup "doesNotExist" = Except.error "UnknownNetwork" ∧
    lookup "sepolia" = Except.ok sepoliaNetwork :=
  ⟨by decide,
   networks_lookup_distinct_profiles.2.2.2.2.2.2.1 "doesNotExist" (by decide),
   networks_lookup_distinct_profiles.1⟩

end FhevmSdk


